import Mathlib

/-!
Shallow embedding of `src/wrangle_stewart_01.py`, a five-stage pandas
wrangling pipeline over a tabular dataset, together with theorems settling
the specification claims about it.

A pandas DataFrame is modelled as a list of named columns together with a
list of rows; each cell is an `Option Val`, where `none` models a missing
value (NaN/NULL) and `Val` is either a rational number (pandas numerics)
or a string (the county labels that `label_fips` introduces).

Python functions that can raise (missing column on attribute access or on
`drop(columns=...)`, `astype(int)` on a null) are modelled as
`Option`-valued functions returning `none` on the raising paths.
-/

attribute [local semireducible] Rat.mul Rat.add Rat.sub Rat.inv Rat.ofScientific

/-- A cell value: pandas numerics are modelled by `ℚ`, strings by `String`. -/
inductive Val where
  | num (q : ℚ)
  | str (s : String)
deriving DecidableEq, Repr

/-- A dataframe cell; `none` models a missing value (NaN). -/
abbrev Cell := Option Val

/-- A dataframe: an ordered list of column names and an ordered list of rows,
each row an ordered list of cells (positionally aligned with `cols`). -/
structure Table where
  cols : List String
  rows : List (List Cell)
deriving DecidableEq, Repr

/-- Cell of a row at a named column (first matching column label, as pandas
attribute access resolves a unique label); `none` when out of range. -/
def getCell (cols : List String) (row : List Cell) (name : String) : Cell :=
  match cols.findIdx? (fun n => n = name) with
  | some j => row.getD j none
  | none => none

/-- Numeric view of a cell: `some q` when the cell holds the number `q`. -/
def cellNum (c : Cell) : Option ℚ :=
  match c with
  | some (Val.num q) => some q
  | _ => none

/-- Count of non-null cells in a list (pandas `count` / `notnull().sum()`). -/
def nonNullCount (cs : List Cell) : Nat := cs.countP (fun c => c.isSome)

/-- Count of null cells in a list (pandas `isnull().sum()`). -/
def nullCount (cs : List Cell) : Nat := cs.countP (fun c => c.isNone)

/-- The cells of column `j`, read down the rows (missing positions of ragged
rows read as null). -/
def colCells (df : Table) (j : Nat) : List Cell :=
  df.rows.map (fun r => r.getD j none)

/-- `df.dropna()` with no arguments: keep exactly the rows with no null cell. -/
def dropnaRows (df : Table) : Table :=
  { cols := df.cols, rows := df.rows.filter (fun r => r.all (fun c => c.isSome)) }

/-- Keep the columns at positions `js`, in that order. -/
def selectCols (df : Table) (js : List Nat) : Table :=
  { cols := js.map (fun j => df.cols.getD j ""),
    rows := df.rows.map (fun r => js.map (fun j => r.getD j none)) }

/-- `df.dropna(axis=1, thresh=t)`: keep exactly the columns whose non-null
count is at least `t`. -/
def dropnaColsThresh (df : Table) (t : ℚ) : Table :=
  selectCols df ((List.range df.cols.length).filter
    (fun j => decide (t ≤ (nonNullCount (colCells df j) : ℚ))))

/-- `df.dropna(thresh=t)`: keep exactly the rows whose non-null count is at
least `t`. -/
def dropnaRowsThresh (df : Table) (t : ℚ) : Table :=
  { cols := df.cols,
    rows := df.rows.filter (fun r => decide (t ≤ (nonNullCount r : ℚ))) }

/-- `df.drop(columns=names)`: remove every column whose label is in `names`;
pandas raises `KeyError` when a requested label is absent, modelled by `none`. -/
def dropColumns (df : Table) (names : List String) : Option Table :=
  if names.all (fun n => df.cols.contains n) then
    some (selectCols df ((List.range df.cols.length).filter
      (fun j => !names.contains (df.cols.getD j ""))))
  else none

/-! ## `cols_missing_rows` and `rows_missing_cols` (missingness diagnostics) -/

/-- One row of the table built by `cols_missing_rows`: the input column name
(the output index), its null count, and the null fraction of its rows. The
fraction cell is `none` exactly on the float `0/0 = NaN` path. -/
structure ColsMissRow where
  idx : String
  num_rows_missing : Nat
  pct_rows_missing : Cell
deriving DecidableEq, Repr

/-- `cols_missing_rows(df)`: one output row per input column, carrying the
column's null count and that count divided by `len(df)`.  With zero input
rows every count is `0` and the float division `0/0` yields NaN, modelled
by a `none` cell. -/
def cols_missing_rows (df : Table) : List ColsMissRow :=
  (List.range df.cols.length).map (fun j =>
    { idx := df.cols.getD j "",
      num_rows_missing := nullCount (colCells df j),
      pct_rows_missing :=
        if df.rows.length = 0 then none
        else some (Val.num ((nullCount (colCells df j) : ℚ) / (df.rows.length : ℚ))) })

/-- One row of the table built by `rows_missing_cols`: a per-row null count
`k`, the fraction `k / len(df.columns)`, and how many rows have exactly `k`
nulls. The fraction cell is `none` exactly on the float `0/0 = NaN` path. -/
structure RowsMissRow where
  num_cols_missing : Nat
  pct_cols_missing : Cell
  num_rows : Nat
deriving DecidableEq, Repr

/-- The per-row null counts `df.isnull().sum(axis=1)`. -/
def rowNullCounts (df : Table) : List Nat :=
  df.rows.map (fun r => nullCount r)

/-- `rows_missing_cols(df)`: one output row per distinct per-row null count
(`value_counts` groups the distinct values; here deduplicated while keeping
one representative each — the claims under proof are order-independent),
carrying the count `k`, `k / len(df.columns)`, and the number of rows with
exactly `k` nulls. -/
def rows_missing_cols (df : Table) : List RowsMissRow :=
  (rowNullCounts df).dedup.map (fun k =>
    { num_cols_missing := k,
      pct_cols_missing :=
        if df.cols.length = 0 then none
        else some (Val.num ((k : ℚ) / (df.cols.length : ℚ))),
      num_rows := (rowNullCounts df).count k })

/-! ## `only_single_units` -/

/-- The fixed land-use allow-list of `only_single_units`. -/
def landuseAllowed : List ℚ := [261, 262, 263, 264, 266, 268, 273, 276, 279]

/-- Mask of the first filter line: `zillow.propertylandusetypeid.isin([...])`.
A null (or non-numeric) cell is not `isin` the list. -/
def landuseMask (cols : List String) (row : List Cell) : Bool :=
  match cellNum (getCell cols row "propertylandusetypeid") with
  | some q => landuseAllowed.contains q
  | none => false

/-- Mask of the second filter line: `(zillow.baths > 0) & (zillow.sq_ft > 300)`.
Comparisons against a null cell are false. -/
def bathsSqftMask (cols : List String) (row : List Cell) : Bool :=
  (match cellNum (getCell cols row "baths") with
   | some q => decide (0 < q)
   | none => false)
  && (match cellNum (getCell cols row "sq_ft") with
      | some q => decide (300 < q)
      | none => false)

/-- Mask of the third filter line:
`(zillow_filt.unitcnt == 1) | (zillow_filt.unitcnt.isnull())`. -/
def unitcntMask (cols : List String) (row : List Cell) : Bool :=
  match getCell cols row "unitcnt" with
  | none => true
  | some v => decide (v = Val.num 1)

/-- The conjunction of the three filter masks of `only_single_units`. -/
def singleUnitsCond (cols : List String) (row : List Cell) : Bool :=
  landuseMask cols row && bathsSqftMask cols row && unitcntMask cols row

/-- `only_single_units(zillow)`: three successive boolean-mask filters.  The
second mask is computed from the original frame but pandas aligns it by index
onto the already-filtered frame, and filtering never changes a row's values,
so it filters by the row's own `baths`/`sq_ft`.  Attribute access on a frame
lacking one of the four columns raises, modelled by `none`. -/
def only_single_units (zillow : Table) : Option Table :=
  if zillow.cols.contains "propertylandusetypeid" && zillow.cols.contains "baths"
      && zillow.cols.contains "sq_ft" && zillow.cols.contains "unitcnt" then
    some { cols := zillow.cols,
           rows := ((zillow.rows.filter (landuseMask zillow.cols)).filter
                      (bathsSqftMask zillow.cols)).filter
                      (unitcntMask zillow.cols) }
  else none

/-! ## `handle_missing_values` -/

/-- `handle_missing_values(df, prop_req_col, prop_req_row)`: drop columns by
`dropna(axis=1, thresh=prop_req_col*len(df))`, then drop rows by
`dropna(thresh=prop_req_row*len(df.columns))`, where `len(df.columns)` is
read from the frame after the column drop. -/
def handle_missing_values (df : Table) (prop_req_col prop_req_row : ℚ) : Table :=
  let df1 := dropnaColsThresh df (prop_req_col * (df.rows.length : ℚ))
  dropnaRowsThresh df1 (prop_req_row * (df1.cols.length : ℚ))

/-! ## `label_fips` -/

/-- The NumPy float-to-int cast: truncation toward zero. -/
def truncInt (q : ℚ) : ℤ := if 0 ≤ q then ⌊q⌋ else ⌈q⌉

/-- `astype(int)` on a single cell: a numeric value is truncated toward zero
(the NumPy float-to-int cast); a null or non-numeric cell makes the cast
raise, modelled by `none`. -/
def castCellInt (c : Cell) : Option Cell :=
  match c with
  | some (Val.num q) => some (some (Val.num ((truncInt q : ℤ) : ℚ)))
  | _ => none

/-- The replacement dictionary of `label_fips`: the three known county codes
map to county-name strings, every other value passes through unchanged. -/
def fipsRepl (v : Val) : Val :=
  match v with
  | Val.num q =>
      if q = 6037 then Val.str "Los Angeles, CA"
      else if q = 6059 then Val.str "Orange, CA"
      else if q = 6111 then Val.str "Ventura, CA"
      else Val.num q
  | v => v

/-- Column assignment `df[name] = vals`: overwrite the column in place when
the label exists, otherwise append a new column at the end. -/
def setCol (df : Table) (name : String) (vals : List Cell) : Table :=
  match df.cols.findIdx? (fun n => n = name) with
  | some j => { cols := df.cols,
                rows := List.zipWith (fun r v => r.set j v) df.rows vals }
  | none => { cols := df.cols ++ [name],
              rows := List.zipWith (fun r v => r ++ [v]) df.rows vals }

/-- `label_fips(zillow)`: cast the `fips` column to int, then assign
`fips_loc` as the replacement-mapped `fips`.  Missing `fips` column or a
failing cast raises, modelled by `none`. -/
def label_fips (zillow : Table) : Option Table :=
  match zillow.cols.findIdx? (fun n => n = "fips") with
  | none => none
  | some j =>
    if zillow.rows.all (fun r => (castCellInt (r.getD j none)).isSome) then
      some (setCol
        { cols := zillow.cols,
          rows := zillow.rows.map (fun r => r.set j ((castCellInt (r.getD j none)).getD none)) }
        "fips_loc"
        (zillow.rows.map (fun r => ((castCellInt (r.getD j none)).getD none).map fipsRepl)))
    else none

/-! ## Argument post-states (frame effects)

Each stage is also given an explicit state-passing reading: the function
below each stage gives the state of the caller's dataframe object after the
call.  Boolean-mask indexing, `dropna`, `drop` and the `pd.DataFrame`
constructor all build new frames, so the first four stages leave their
argument untouched.  `label_fips`, in contrast, assigns columns on the
frame it was passed (`zillow['fips'] = ...`, `zillow['fips_loc'] = ...`),
mutating it in place, and then returns that same object; its right-hand
side `astype(int)` is evaluated before the first assignment, so on the
raising path the argument is still unchanged. -/

/-- Argument state after `only_single_units`: boolean-mask indexing builds new
frames; the argument is untouched. -/
def only_single_units_argAfter (zillow : Table) : Table := zillow

/-- Argument state after `handle_missing_values`: `dropna` (without
`inplace`) builds new frames; the argument is untouched. -/
def handle_missing_values_argAfter (df : Table) (_ _ : ℚ) : Table := df

/-- Argument state after `cols_missing_rows`: the local name is rebound to a
fresh `pd.DataFrame`; the argument is untouched. -/
def cols_missing_rows_argAfter (df : Table) : Table := df

/-- Argument state after `rows_missing_cols`: the local name is rebound to a
fresh `pd.DataFrame`; the argument is untouched. -/
def rows_missing_cols_argAfter (df : Table) : Table := df

/-- Argument state after `label_fips`: the in-place column assignments leave
the argument equal to the returned frame; on the raising path the cast fails
before any assignment, leaving the argument unchanged. -/
def label_fips_argAfter (zillow : Table) : Table :=
  (label_fips zillow).getD zillow

/-! ## `wrangle_zillow` -/

/-- `wrangle_zillow(prop_req_col, prop_req_row)` as the source composes it,
parameterized by the acquired table (`acquire_zillow` performs database/file
I/O and is the pipeline's sole upstream input): filter to single units,
threshold-prune, drop the `unitcnt` and `propertylandusetypeid` columns,
drop rows with remaining nulls, relabel the county code. -/
def wrangle_zillow (acquired : Table) (prop_req_col prop_req_row : ℚ) : Option Table :=
  match only_single_units acquired with
  | none => none
  | some filt =>
    match dropColumns (handle_missing_values filt prop_req_col prop_req_row)
        ["unitcnt", "propertylandusetypeid"] with
    | none => none
    | some dropped => label_fips (dropnaRows dropped)

/-- The five-stage composition exactly as the spec words it:
acquire → filter-to-single-units → drop-sparse-rows/cols →
drop-remaining-nulls → relabel, with no other transformation between or
after these stages (in particular, no unconditional drop of the `unitcnt`
and `propertylandusetypeid` columns). -/
def wrangle_zillow_five_stage (acquired : Table) (prop_req_col prop_req_row : ℚ) :
    Option Table :=
  match only_single_units acquired with
  | none => none
  | some filt =>
    label_fips (dropnaRows (handle_missing_values filt prop_req_col prop_req_row))

/-- The amended composition: the five spec stages plus, between the threshold
prune and the null-row drop, the unconditional removal of the `unitcnt` and
`propertylandusetypeid` columns. -/
def wrangle_zillow_six_stage (acquired : Table) (prop_req_col prop_req_row : ℚ) :
    Option Table :=
  match only_single_units acquired with
  | none => none
  | some filt =>
    match dropColumns (handle_missing_values filt prop_req_col prop_req_row)
        ["unitcnt", "propertylandusetypeid"] with
    | none => none
    | some dropped => label_fips (dropnaRows dropped)

/-! ## Concrete tables used by the witnesses and counterexamples -/

/-- A small concrete acquisition result exercising every pipeline stage. -/
def wTab : Table :=
  { cols := ["propertylandusetypeid", "baths", "sq_ft", "unitcnt", "fips"],
    rows := [[some (Val.num 261), some (Val.num 2), some (Val.num 400),
              some (Val.num 1), some (Val.num 6037)],
             [some (Val.num 100), some (Val.num 2), some (Val.num 400),
              some (Val.num 1), some (Val.num 6059)],
             [some (Val.num 262), some (Val.num 0), some (Val.num 400),
              none, some (Val.num 6111)],
             [some (Val.num 263), some (Val.num 3), some (Val.num 500),
              none, some (Val.num 1234)]] }

/-- The single-unit filter's output on `wTab`. -/
def wOut : Table :=
  { cols := ["propertylandusetypeid", "baths", "sq_ft", "unitcnt", "fips"],
    rows := [[some (Val.num 261), some (Val.num 2), some (Val.num 400),
              some (Val.num 1), some (Val.num 6037)],
             [some (Val.num 263), some (Val.num 3), some (Val.num 500),
              none, some (Val.num 1234)]] }

/-- A one-row, one-column frame on which `label_fips` mutates its argument. -/
def mutTab : Table := { cols := ["fips"], rows := [[some (Val.num 6037)]] }

/-- The value of `wrangle_zillow wTab 0 0`. -/
def wzOut : Table :=
  { cols := ["baths", "sq_ft", "fips", "fips_loc"],
    rows := [[some (Val.num 2), some (Val.num 400), some (Val.num 6037),
              some (Val.str "Los Angeles, CA")],
             [some (Val.num 3), some (Val.num 500), some (Val.num 1234),
              some (Val.num 1234)]] }

/-! ## Helper lemmas -/

lemma triple_filter_eq (cols : List String) (l : List (List Cell)) :
    ((l.filter (landuseMask cols)).filter (bathsSqftMask cols)).filter (unitcntMask cols)
      = l.filter (singleUnitsCond cols) := by
  rw [List.filter_filter, List.filter_filter]
  apply List.filter_congr
  intro x _
  simp only [singleUnitsCond]
  cases landuseMask cols x <;> cases bathsSqftMask cols x <;> cases unitcntMask cols x <;> rfl

lemma only_single_units_inv {z out : Table} (h : only_single_units z = some out) :
    z.cols.contains "propertylandusetypeid" = true ∧ z.cols.contains "baths" = true ∧
    z.cols.contains "sq_ft" = true ∧ z.cols.contains "unitcnt" = true ∧
    out = { cols := z.cols, rows := z.rows.filter (singleUnitsCond z.cols) } := by
  unfold only_single_units at h
  split at h
  case isTrue hc =>
    simp only [Bool.and_eq_true] at hc
    obtain ⟨⟨⟨h1, h2⟩, h3⟩, h4⟩ := hc
    refine ⟨h1, h2, h3, h4, ?_⟩
    cases h
    rw [triple_filter_eq]
  case isFalse hc => cases h

lemma only_single_units_self (z : Table)
    (h1 : z.cols.contains "propertylandusetypeid" = true)
    (h2 : z.cols.contains "baths" = true)
    (h3 : z.cols.contains "sq_ft" = true)
    (h4 : z.cols.contains "unitcnt" = true)
    (hself : ∀ r ∈ z.rows, singleUnitsCond z.cols r = true) :
    only_single_units z = some z := by
  simp only [only_single_units, h1, h2, h3, h4, Bool.and_self, if_true]
  rw [triple_filter_eq, List.filter_eq_self.mpr hself]

lemma landuseMask_iff (cols : List String) (r : List Cell) :
    landuseMask cols r = true ↔
      ∃ q, cellNum (getCell cols r "propertylandusetypeid") = some q ∧ q ∈ landuseAllowed := by
  unfold landuseMask
  cases h : cellNum (getCell cols r "propertylandusetypeid") <;> simp [h]

lemma bathsSqftMask_iff (cols : List String) (r : List Cell) :
    bathsSqftMask cols r = true ↔
      (∃ q, cellNum (getCell cols r "baths") = some q ∧ 0 < q) ∧
      (∃ q, cellNum (getCell cols r "sq_ft") = some q ∧ 300 < q) := by
  unfold bathsSqftMask
  cases h1 : cellNum (getCell cols r "baths") <;>
    cases h2 : cellNum (getCell cols r "sq_ft") <;> simp [h1, h2]

lemma unitcntMask_iff (cols : List String) (r : List Cell) :
    unitcntMask cols r = true ↔
      (getCell cols r "unitcnt" = some (Val.num 1) ∨ getCell cols r "unitcnt" = none) := by
  unfold unitcntMask
  cases h : getCell cols r "unitcnt" <;> simp [h]

/-! ## Claim theorems -/

/-- C3: `only_single_units` keeps a row if and only if its land-use-type code
is in the fixed allow-list, its bath count is strictly positive, its area
exceeds 300, and its unit count is exactly 1 or missing; every other row is
removed and kept rows are passed through unmodified (the output rows are a
filter of the input rows). -/
theorem only_single_units_keeps_iff (z out : Table)
    (h : only_single_units z = some out) :
    out.cols = z.cols ∧
    out.rows = z.rows.filter (singleUnitsCond z.cols) ∧
    ∀ r ∈ z.rows, (r ∈ out.rows ↔
      ((∃ q, cellNum (getCell z.cols r "propertylandusetypeid") = some q ∧ q ∈ landuseAllowed) ∧
       (∃ q, cellNum (getCell z.cols r "baths") = some q ∧ 0 < q) ∧
       (∃ q, cellNum (getCell z.cols r "sq_ft") = some q ∧ 300 < q) ∧
       (getCell z.cols r "unitcnt" = some (Val.num 1) ∨ getCell z.cols r "unitcnt" = none))) := by
  obtain ⟨h1, h2, h3, h4, rfl⟩ := only_single_units_inv h
  refine ⟨rfl, rfl, ?_⟩
  intro r hr
  simp only [List.mem_filter, hr, true_and]
  rw [show (singleUnitsCond z.cols r = true) ↔
        ((landuseMask z.cols r = true ∧ bathsSqftMask z.cols r = true) ∧
          unitcntMask z.cols r = true) by simp [singleUnitsCond, Bool.and_eq_true]]
  rw [landuseMask_iff, bathsSqftMask_iff, unitcntMask_iff]
  tauto

/-- C3 witness: the filter characterization instantiated on `wTab`. -/
theorem only_single_units_keeps_iff_witness :
    wOut.rows = wTab.rows.filter (singleUnitsCond wTab.cols) :=
  (only_single_units_keeps_iff wTab wOut (by decide)).2.1

/-- C9: `only_single_units` is idempotent, and its output rows are a
sub-sequence of the input rows in their original order. -/
theorem only_single_units_idem (z out : Table) (h : only_single_units z = some out) :
    only_single_units out = some out ∧ out.rows.Sublist z.rows := by
  obtain ⟨h1, h2, h3, h4, rfl⟩ := only_single_units_inv h
  refine ⟨?_, List.filter_sublist _⟩
  apply only_single_units_self
  · exact h1
  · exact h2
  · exact h3
  · exact h4
  · intro r hr
    exact (List.mem_filter.mp hr).2

/-- C9 witness: idempotence and the sub-sequence property on `wTab`. -/
theorem only_single_units_idem_witness :
    only_single_units wOut = some wOut ∧ wOut.rows.Sublist wTab.rows :=
  only_single_units_idem wTab wOut (by decide)

lemma nullCount_colCells (df : Table) (j : Nat) :
    nullCount (colCells df j) = df.rows.countP (fun r => (r.getD j none).isNone) := by
  simp only [nullCount, colCells, List.countP_map]
  rfl

/-- C6: on a non-empty table, `cols_missing_rows` returns one row per input
column, holding that column's missing count and that count divided by the
row count; it reads nothing but the input table. -/
theorem cols_missing_rows_spec (df : Table) (h : 0 < df.rows.length) :
    (cols_missing_rows df).length = df.cols.length ∧
    ∀ j, j < df.cols.length →
      (cols_missing_rows df).getD j ⟨"", 0, none⟩ =
        { idx := df.cols.getD j "",
          num_rows_missing := df.rows.countP (fun r => (r.getD j none).isNone),
          pct_rows_missing := some (Val.num
            ((df.rows.countP (fun r => (r.getD j none).isNone) : ℚ) /
              (df.rows.length : ℚ))) } := by
  constructor
  · simp [cols_missing_rows]
  · intro j hj
    rw [List.getD_eq_getElem?_getD, cols_missing_rows, List.getElem?_map,
      List.getElem?_range hj]
    simp only [Option.map_some', Option.getD_some]
    rw [if_neg (Nat.pos_iff_ne_zero.mp h), nullCount_colCells]

/-- C6 witness: the per-column diagnostic row for the `unitcnt` column of
`wTab`, obtained from the theorem at `j = 3`. -/
theorem cols_missing_rows_spec_witness :
    (cols_missing_rows wTab).getD 3 ⟨"", 0, none⟩ =
      { idx := wTab.cols.getD 3 "",
        num_rows_missing := wTab.rows.countP (fun r => (r.getD 3 none).isNone),
        pct_rows_missing := some (Val.num
          ((wTab.rows.countP (fun r => (r.getD 3 none).isNone) : ℚ) /
            (wTab.rows.length : ℚ))) } :=
  (cols_missing_rows_spec wTab (by decide)).2 3 (by decide)

/-- C10: in `cols_missing_rows`, the percentage divisor `len(df)` vanishes
exactly on the empty table, and precisely there the percentage cell is not a
defined fraction (the float `0/0`, i.e. NaN, modelled by `none`). -/
theorem cols_missing_rows_pct_defined_iff (df : Table) (m : ColsMissRow)
    (hm : m ∈ cols_missing_rows df) :
    m.pct_rows_missing = none ↔ df.rows = [] := by
  simp only [cols_missing_rows, List.mem_map, List.mem_range] at hm
  obtain ⟨j, hj, rfl⟩ := hm
  by_cases h0 : df.rows.length = 0
  · simp [h0, List.length_eq_zero.mp h0]
  · simp only [if_neg h0]
    constructor
    · intro hc
      exact absurd hc (by simp)
    · intro hr
      exact absurd (by rw [hr] : df.rows.length = ([] : List (List Cell)).length) (by simpa using h0)

/-- C10 witness: on the one-column, zero-row table the percentage cell of the
diagnostic row is undefined. -/
theorem cols_missing_rows_pct_defined_iff_witness :
    (ColsMissRow.mk "a" 0 none).pct_rows_missing = none ↔
      (Table.mk ["a"] []).rows = [] :=
  cols_missing_rows_pct_defined_iff (Table.mk ["a"] []) (ColsMissRow.mk "a" 0 none) (by decide)

lemma rows_missing_cols_map_counts (df : Table) :
    (rows_missing_cols df).map (fun m => m.num_cols_missing) = (rowNullCounts df).dedup := by
  simp only [rows_missing_cols, List.map_map]
  exact List.map_id _

lemma count_rowNullCounts (df : Table) (k : Nat) :
    (rowNullCounts df).count k =
      df.rows.countP (fun r => decide (r.countP (fun c => c.isNone) = k)) := by
  rw [List.count_eq_countP, rowNullCounts, List.countP_map]
  apply List.countP_congr
  intro r _
  simp [nullCount]

/-- C7: on a table with at least one column, `rows_missing_cols` has exactly
one output row per distinct per-row missing-count `k` occurring in the table
(no duplicates, and a count occurring in no row does not appear), and that
row carries `k`, the fraction `k` over the column count, and the number of
rows having exactly `k` missing values. -/
theorem rows_missing_cols_spec (df : Table) (h : 0 < df.cols.length) :
    ((rows_missing_cols df).map (fun m => m.num_cols_missing)).Nodup ∧
    (∀ k : Nat, (∃ m ∈ rows_missing_cols df, m.num_cols_missing = k) ↔
        ∃ r ∈ df.rows, r.countP (fun c => c.isNone) = k) ∧
    ∀ m ∈ rows_missing_cols df,
      m.pct_cols_missing =
        some (Val.num ((m.num_cols_missing : ℚ) / (df.cols.length : ℚ))) ∧
      m.num_rows =
        df.rows.countP (fun r => decide (r.countP (fun c => c.isNone) = m.num_cols_missing)) := by
  refine ⟨?_, ?_, ?_⟩
  · rw [rows_missing_cols_map_counts]
    exact List.nodup_dedup _
  · intro k
    have hk : (∃ m ∈ rows_missing_cols df, m.num_cols_missing = k) ↔
        k ∈ (rows_missing_cols df).map (fun m => m.num_cols_missing) := by
      simp [List.mem_map]
    rw [hk, rows_missing_cols_map_counts, List.mem_dedup, rowNullCounts, List.mem_map]
    constructor
    · rintro ⟨r, hr, hv⟩
      exact ⟨r, hr, hv⟩
    · rintro ⟨r, hr, hv⟩
      exact ⟨r, hr, hv⟩
  · intro m hm
    simp only [rows_missing_cols, List.mem_map] at hm
    obtain ⟨k, hk, rfl⟩ := hm
    refine ⟨?_, ?_⟩
    · simp only [if_neg (Nat.pos_iff_ne_zero.mp h)]
    · exact count_rowNullCounts df k

/-- C7 witness: no two output rows of `rows_missing_cols` on `wTab` share a
per-row missing count. -/
theorem rows_missing_cols_spec_witness :
    ((rows_missing_cols wTab).map (fun m => m.num_cols_missing)).Nodup :=
  (rows_missing_cols_spec wTab (by decide)).1

lemma nonNullCount_colCells (df : Table) (j : Nat) :
    nonNullCount (colCells df j) = df.rows.countP (fun r => (r.getD j none).isSome) := by
  simp only [nonNullCount, colCells, List.countP_map]
  rfl

lemma decide_le_eq_not_lt (t x : ℚ) : decide (t ≤ x) = !decide (x < t) := by
  rw [← decide_not]
  exact decide_eq_decide.mpr not_lt.symm

/-- C2: `handle_missing_values` first drops exactly the columns whose
non-null count falls below `prop_req_col` times the original row count
(a column meeting its threshold is retained), then drops exactly the rows
whose non-null count over the surviving columns falls below `prop_req_row`
times the post-prune column count (a row meeting its threshold is retained). -/
theorem handle_missing_values_spec (df : Table) (prop_req_col prop_req_row : ℚ)
    (h1 : 0 ≤ prop_req_col) (h2 : prop_req_col ≤ 1)
    (h3 : 0 ≤ prop_req_row) (h4 : prop_req_row ≤ 1) :
    handle_missing_values df prop_req_col prop_req_row =
      { cols := (selectCols df ((List.range df.cols.length).filter (fun j =>
          !decide ((df.rows.countP (fun r => (r.getD j none).isSome) : ℚ)
            < prop_req_col * (df.rows.length : ℚ))))).cols,
        rows := (selectCols df ((List.range df.cols.length).filter (fun j =>
          !decide ((df.rows.countP (fun r => (r.getD j none).isSome) : ℚ)
            < prop_req_col * (df.rows.length : ℚ))))).rows.filter (fun r =>
            !decide ((r.countP (fun c => c.isSome) : ℚ)
              < prop_req_row * ((selectCols df ((List.range df.cols.length).filter (fun j =>
                  !decide ((df.rows.countP (fun r => (r.getD j none).isSome) : ℚ)
                    < prop_req_col * (df.rows.length : ℚ))))).cols.length : ℚ))) } := by
  have hcols : (List.range df.cols.length).filter
      (fun j => decide (prop_req_col * (df.rows.length : ℚ)
        ≤ (nonNullCount (colCells df j) : ℚ)))
      = (List.range df.cols.length).filter (fun j =>
          !decide ((df.rows.countP (fun r => (r.getD j none).isSome) : ℚ)
            < prop_req_col * (df.rows.length : ℚ))) := by
    apply List.filter_congr
    intro j _
    rw [nonNullCount_colCells df j]
    exact decide_le_eq_not_lt _ _
  have hrows : ∀ (T : Table) (t : ℚ), dropnaRowsThresh T t =
      { cols := T.cols,
        rows := T.rows.filter (fun r =>
          !decide ((r.countP (fun c => c.isSome) : ℚ) < t)) } := by
    intro T t
    unfold dropnaRowsThresh
    apply congrArg (fun rs => Table.mk T.cols rs)
    apply List.filter_congr
    intro r _
    exact decide_le_eq_not_lt _ _
  show dropnaRowsThresh (dropnaColsThresh df (prop_req_col * (df.rows.length : ℚ)))
      (prop_req_row * (((dropnaColsThresh df (prop_req_col * (df.rows.length : ℚ))).cols.length : ℚ))) = _
  rw [hrows]
  unfold dropnaColsThresh
  rw [hcols]

/-- C2 witness: the two-phase prune characterization instantiated on `wTab`
with thresholds `3/4` and `1/2`. -/
theorem handle_missing_values_spec_witness :
    handle_missing_values wTab (3/4) (1/2) =
      { cols := (selectCols wTab ((List.range wTab.cols.length).filter (fun j =>
          !decide ((wTab.rows.countP (fun r => (r.getD j none).isSome) : ℚ)
            < (3/4) * (wTab.rows.length : ℚ))))).cols,
        rows := (selectCols wTab ((List.range wTab.cols.length).filter (fun j =>
          !decide ((wTab.rows.countP (fun r => (r.getD j none).isSome) : ℚ)
            < (3/4) * (wTab.rows.length : ℚ))))).rows.filter (fun r =>
            !decide ((r.countP (fun c => c.isSome) : ℚ)
              < (1/2) * ((selectCols wTab ((List.range wTab.cols.length).filter (fun j =>
                  !decide ((wTab.rows.countP (fun r => (r.getD j none).isSome) : ℚ)
                    < (3/4) * (wTab.rows.length : ℚ))))).cols.length : ℚ))) } :=
  handle_missing_values_spec wTab (3/4) (1/2) (by norm_num) (by norm_num)
    (by norm_num) (by norm_num)

lemma fipsRepl_cast (n : ℤ) :
    fipsRepl (Val.num (n : ℚ)) =
      (if n = 6037 then Val.str "Los Angeles, CA"
       else if n = 6059 then Val.str "Orange, CA"
       else if n = 6111 then Val.str "Ventura, CA"
       else Val.num (n : ℚ)) := by
  by_cases e1 : n = 6037
  · norm_num [fipsRepl, e1]
  · by_cases e2 : n = 6059
    · norm_num [fipsRepl, e2]
    · by_cases e3 : n = 6111
      · norm_num [fipsRepl, e3]
      · have c1 : ¬((n : ℚ) = 6037) := by exact_mod_cast e1
        have c2 : ¬((n : ℚ) = 6059) := by exact_mod_cast e2
        have c3 : ¬((n : ℚ) = 6111) := by exact_mod_cast e3
        simp [fipsRepl, c1, c2, c3, e1, e2, e3]

/-- C4: on a table whose `fips` column is present and holds (non-missing)
numeric county codes, `label_fips` casts the codes to integers and appends a
`fips_loc` label column mapping 6037, 6059 and 6111 to the three county
names while every other code passes through unchanged as its integer value
(assuming the frame does not already carry a `fips_loc` column, so the label
column is appended). -/
theorem label_fips_spec (z : Table) (j : Nat)
    (hj : z.cols.findIdx? (fun n => n = "fips") = some j)
    (hnum : ∀ r ∈ z.rows, ∃ q : ℚ, r.getD j none = some (Val.num q))
    (hloc : "fips_loc" ∉ z.cols) :
    label_fips z = some
      { cols := z.cols ++ ["fips_loc"],
        rows := z.rows.map (fun r =>
          (r.set j (some (Val.num ((truncInt ((cellNum (r.getD j none)).getD 0) : ℤ) : ℚ)))) ++
          [some (if truncInt ((cellNum (r.getD j none)).getD 0) = 6037 then Val.str "Los Angeles, CA"
                 else if truncInt ((cellNum (r.getD j none)).getD 0) = 6059 then Val.str "Orange, CA"
                 else if truncInt ((cellNum (r.getD j none)).getD 0) = 6111 then Val.str "Ventura, CA"
                 else Val.num ((truncInt ((cellNum (r.getD j none)).getD 0) : ℤ) : ℚ))]) } := by
  have hall : z.rows.all (fun r => (castCellInt (r.getD j none)).isSome) = true := by
    rw [List.all_eq_true]
    intro r hr
    obtain ⟨q, hq⟩ := hnum r hr
    rw [hq]
    rfl
  have hnone : z.cols.findIdx? (fun n => n = "fips_loc") = none := by
    rw [List.findIdx?_eq_none_iff]
    intro x hx
    by_cases e : x = "fips_loc"
    · exact absurd (e ▸ hx) hloc
    · simp [e]
  unfold label_fips
  rw [hj]
  dsimp only
  rw [if_pos hall]
  unfold setCol
  rw [hnone]
  apply congrArg
  apply congrArg (fun rs => Table.mk (z.cols ++ ["fips_loc"]) rs)
  rw [List.zipWith_map, List.zipWith_same]
  apply List.map_congr_left
  intro r hr
  obtain ⟨q, hq⟩ := hnum r hr
  rw [hq]
  show r.set j ((castCellInt (some (Val.num q))).getD none) ++
      [((castCellInt (some (Val.num q))).getD none).map fipsRepl] = _
  rw [show (castCellInt (some (Val.num q))).getD none
        = some (Val.num ((truncInt q : ℤ) : ℚ)) from rfl]
  rw [show (cellNum (some (Val.num q))).getD 0 = q from rfl]
  rw [show (some (Val.num ((truncInt q : ℤ) : ℚ))).map fipsRepl
        = some (fipsRepl (Val.num ((truncInt q : ℤ) : ℚ))) from rfl]
  rw [fipsRepl_cast]

/-- C4 witness: the labelling theorem instantiated on a one-row frame whose
county code is 6037. -/
theorem label_fips_spec_witness :
    label_fips (Table.mk ["fips"] [[some (Val.num 6037)]]) = some
      { cols := ["fips"] ++ ["fips_loc"],
        rows := [[some (Val.num 6037)]].map (fun r : List Cell =>
          (r.set 0 (some (Val.num ((truncInt ((cellNum (r.getD 0 none)).getD 0) : ℤ) : ℚ)))) ++
          [some (if truncInt ((cellNum (r.getD 0 none)).getD 0) = 6037 then Val.str "Los Angeles, CA"
                 else if truncInt ((cellNum (r.getD 0 none)).getD 0) = 6059 then Val.str "Orange, CA"
                 else if truncInt ((cellNum (r.getD 0 none)).getD 0) = 6111 then Val.str "Ventura, CA"
                 else Val.num ((truncInt ((cellNum (r.getD 0 none)).getD 0) : ℤ) : ℚ))]) } :=
  label_fips_spec (Table.mk ["fips"] [[some (Val.num 6037)]]) 0 (by decide)
    (by intro r hr
        rw [List.mem_singleton] at hr
        subst hr
        exact ⟨6037, rfl⟩)
    (by decide)

/-- C5 counterexample: `label_fips` does not leave the frame it is given
unchanged — called on `mutTab`, its in-place column assignments alter the
caller's frame (overwriting `fips` and adding `fips_loc`), so its argument's
post-state differs from the input. -/
theorem label_fips_argAfter_ne : label_fips_argAfter mutTab ≠ mutTab := by decide

/-- C5 (amended): `only_single_units`, `handle_missing_values`,
`cols_missing_rows` and `rows_missing_cols` leave the table they are given
unchanged, but `label_fips` mutates its argument in place: whenever it
returns a frame, the argument's post-state is that same returned frame. -/
theorem pipeline_stage_frames (df : Table) (prop_req_col prop_req_row : ℚ) :
    only_single_units_argAfter df = df ∧
    handle_missing_values_argAfter df prop_req_col prop_req_row = df ∧
    cols_missing_rows_argAfter df = df ∧
    rows_missing_cols_argAfter df = df ∧
    ∀ out, label_fips df = some out → label_fips_argAfter df = out := by
  refine ⟨rfl, rfl, rfl, rfl, ?_⟩
  intro out h
  simp [label_fips_argAfter, h]

/-- C5 witness: the frame-effect statement instantiated on `mutTab`. -/
theorem pipeline_stage_frames_witness :
    only_single_units_argAfter mutTab = mutTab ∧
    label_fips_argAfter mutTab =
      Table.mk ["fips", "fips_loc"]
        [[some (Val.num 6037), some (Val.str "Los Angeles, CA")]] :=
  ⟨(pipeline_stage_frames mutTab 0 0).1,
   (pipeline_stage_frames mutTab 0 0).2.2.2.2
     (Table.mk ["fips", "fips_loc"]
       [[some (Val.num 6037), some (Val.str "Los Angeles, CA")]]) (by decide)⟩

/-- C1 counterexample: on a concrete acquired table with thresholds 0,
`wrangle_zillow` differs from the five-stage composition the spec names —
the code additionally drops the `unitcnt` and `propertylandusetypeid`
columns between the threshold prune and the null-row drop. -/
theorem wrangle_zillow_ne_five_stage :
    wrangle_zillow wTab 0 0 ≠ wrangle_zillow_five_stage wTab 0 0 := by decide

/-- C1 (amended): for every acquired table and every pair of thresholds,
`wrangle_zillow` equals the six-stage composition: acquire, filter to single
units, threshold-prune, drop the `unitcnt` and `propertylandusetypeid`
columns, drop every remaining row containing a null, relabel the county
code — and nothing more. -/
theorem wrangle_zillow_eq_six_stage (acquired : Table) (prop_req_col prop_req_row : ℚ) :
    wrangle_zillow acquired prop_req_col prop_req_row =
      wrangle_zillow_six_stage acquired prop_req_col prop_req_row := rfl

lemma castCellInt_isSome {c : Cell} :
    (castCellInt c).isSome = true ↔ ∃ q : ℚ, c = some (Val.num q) := by
  cases c with
  | none => simp [castCellInt]
  | some v => cases v <;> simp [castCellInt]

lemma findIdx?_some_pred {α : Type} {p : α → Bool} {l : List α} {i : Nat}
    (h : l.findIdx? p = some i) :
    ∃ hi : i < l.length, p (l.get ⟨i, hi⟩) = true := by
  rw [List.findIdx?_eq_guard_findIdx_lt] at h
  unfold Option.guard at h
  split at h
  · case isTrue hlt =>
    cases h
    exact ⟨hlt, ((List.findIdx_eq hlt).mp rfl).1⟩
  · cases h

lemma label_fips_inv {z out : Table} (h : label_fips z = some out) :
    ∃ j, z.cols.findIdx? (fun n => n = "fips") = some j ∧
      (∀ r ∈ z.rows, (castCellInt (r.getD j none)).isSome = true) ∧
      out = setCol
        { cols := z.cols,
          rows := z.rows.map (fun r => r.set j ((castCellInt (r.getD j none)).getD none)) }
        "fips_loc"
        (z.rows.map (fun r => ((castCellInt (r.getD j none)).getD none).map fipsRepl)) := by
  unfold label_fips at h
  split at h
  · cases h
  · case _ j hj =>
    split at h
    · case isTrue hall =>
      cases h
      exact ⟨j, hj, List.all_eq_true.mp hall, rfl⟩
    · cases h

lemma dropColumns_inv {df : Table} {names : List String} {d : Table}
    (h : dropColumns df names = some d) :
    d = selectCols df ((List.range df.cols.length).filter
      (fun j => !names.contains (df.cols.getD j ""))) := by
  unfold dropColumns at h
  split at h
  · cases h
    rfl
  · cases h

lemma dropColumns_not_mem {df : Table} {names : List String} {d : Table}
    (h : dropColumns df names = some d) {n : String} (hn : n ∈ names) :
    n ∉ d.cols := by
  rw [dropColumns_inv h]
  intro hmem
  simp only [selectCols, List.mem_map, List.mem_filter, List.mem_range] at hmem
  obtain ⟨j, ⟨hjr, hpred⟩, hje⟩ := hmem
  rw [hje] at hpred
  rw [Bool.not_eq_true'] at hpred
  have hmem : names.elem n = true := List.elem_iff.mpr hn
  rw [show names.contains n = names.elem n from rfl] at hpred
  rw [hpred] at hmem
  cases hmem

lemma dropnaRows_allSome (df : Table) :
    ∀ r ∈ (dropnaRows df).rows, ∀ c ∈ r, c.isSome = true := by
  intro r hr c hc
  simp only [dropnaRows, List.mem_filter] at hr
  exact List.all_eq_true.mp hr.2 c hc

lemma getD_append_left {a b : List Cell} {j : Nat} (h : j < a.length) :
    (a ++ b).getD j none = a.getD j none := by
  rw [List.getD_eq_getElem?_getD, List.getElem?_append_left h, ← List.getD_eq_getElem?_getD]

lemma getD_set_self {r : List Cell} {j : Nat} {c : Cell} (h : j < r.length) :
    (r.set j c).getD j none = c := by
  rw [List.getD_eq_getElem (r.set j c) none (by simpa using h)]
  exact List.getElem_set_self _

lemma getD_some_lt {r : List Cell} {j : Nat} {v : Val}
    (h : r.getD j none = some v) : j < r.length := by
  by_contra hge
  rw [List.getD_eq_default _ _ (Nat.le_of_not_lt hge)] at h
  cases h

lemma getD_set_ne {l : List Cell} {m j : Nat} (hne : m ≠ j) (v : Cell) :
    (l.set m v).getD j none = l.getD j none := by
  by_cases hj : j < l.length
  · rw [List.getD_eq_getElem (l.set m v) none (by simpa using hj),
      List.getD_eq_getElem l none hj]
    exact List.getElem_set_ne hne _
  · rw [List.getD_eq_default _ _ (by simpa using Nat.le_of_not_lt hj),
      List.getD_eq_default _ _ (Nat.le_of_not_lt hj)]

lemma castCellInt_getD_of_num {r : List Cell} {j : Nat} {q : ℚ}
    (hq : r.getD j none = some (Val.num q)) :
    (castCellInt (r.getD j none)).getD none = some (Val.num ((truncInt q : ℤ) : ℚ)) := by
  rw [hq]
  rfl

/-- C8: whenever `wrangle_zillow` returns a table, that table has no missing
value in any cell, carries neither a `unitcnt` nor a `propertylandusetypeid`
column, and its `fips` column holds only integer values. -/
theorem wrangle_zillow_invariants (acquired : Table) (prop_req_col prop_req_row : ℚ)
    (out : Table) (h : wrangle_zillow acquired prop_req_col prop_req_row = some out) :
    (∀ r ∈ out.rows, ∀ c ∈ r, c.isSome = true) ∧
    "unitcnt" ∉ out.cols ∧
    "propertylandusetypeid" ∉ out.cols ∧
    (∀ r ∈ out.rows, ∃ n : ℤ, getCell out.cols r "fips" = some (Val.num (n : ℚ))) := by
  unfold wrangle_zillow at h
  split at h
  · cases h
  case _ filt hfilt =>
  split at h
  · cases h
  case _ dropped hdrop =>
  obtain ⟨j, hj, hall, hout⟩ := label_fips_inv h
  have hUnit : "unitcnt" ∉ dropped.cols := dropColumns_not_mem hdrop (by simp)
  have hProp : "propertylandusetypeid" ∉ dropped.cols := dropColumns_not_mem hdrop (by simp)
  have hclean : ∀ r ∈ (dropnaRows dropped).rows, ∀ c ∈ r, c.isSome = true :=
    dropnaRows_allSome dropped
  unfold setCol at hout
  split at hout
  case _ m hm =>
    -- `fips_loc` already present: the label column is overwritten in place
    rw [List.zipWith_map, List.zipWith_same] at hout
    have hmj : m ≠ j := by
      obtain ⟨hmlt, hmp⟩ := findIdx?_some_pred hm
      obtain ⟨hjlt, hjp⟩ := findIdx?_some_pred hj
      intro hEq
      subst hEq
      rw [decide_eq_true_eq] at hmp hjp
      rw [hmp] at hjp
      exact absurd hjp (by decide)
    subst hout
    refine ⟨?_, hUnit, hProp, ?_⟩
    · intro r' hr' c hc
      obtain ⟨r, hr, rfl⟩ := List.mem_map.mp hr'
      obtain ⟨q, hq⟩ := castCellInt_isSome.mp (hall r hr)
      rcases List.mem_or_eq_of_mem_set hc with hc1 | rfl
      · rcases List.mem_or_eq_of_mem_set hc1 with hc2 | rfl
        · exact hclean r hr c hc2
        · rw [castCellInt_getD_of_num hq]
          rfl
      · rw [castCellInt_getD_of_num hq]
        rfl
    · intro r' hr'
      obtain ⟨r, hr, rfl⟩ := List.mem_map.mp hr'
      obtain ⟨q, hq⟩ := castCellInt_isSome.mp (hall r hr)
      refine ⟨truncInt q, ?_⟩
      unfold getCell
      dsimp only
      rw [hj]
      dsimp only
      have hjr : j < r.length := getD_some_lt hq
      rw [getD_set_ne hmj, getD_set_self (by simpa using hjr),
        castCellInt_getD_of_num hq]
  case _ hm =>
    -- `fips_loc` absent: the label column is appended
    rw [List.zipWith_map, List.zipWith_same] at hout
    subst hout
    refine ⟨?_, ?_, ?_, ?_⟩
    · intro r' hr' c hc
      obtain ⟨r, hr, rfl⟩ := List.mem_map.mp hr'
      obtain ⟨q, hq⟩ := castCellInt_isSome.mp (hall r hr)
      rcases List.mem_append.mp hc with hc1 | hc1
      · rcases List.mem_or_eq_of_mem_set hc1 with hc2 | rfl
        · exact hclean r hr c hc2
        · rw [castCellInt_getD_of_num hq]
          rfl
      · rw [List.mem_singleton.mp hc1, castCellInt_getD_of_num hq]
        rfl
    · intro hmem
      rcases List.mem_append.mp hmem with hc | hc
      · exact hUnit hc
      · exact absurd (List.mem_singleton.mp hc) (by decide)
    · intro hmem
      rcases List.mem_append.mp hmem with hc | hc
      · exact hProp hc
      · exact absurd (List.mem_singleton.mp hc) (by decide)
    · intro r' hr'
      obtain ⟨r, hr, rfl⟩ := List.mem_map.mp hr'
      obtain ⟨q, hq⟩ := castCellInt_isSome.mp (hall r hr)
      refine ⟨truncInt q, ?_⟩
      unfold getCell
      dsimp only
      rw [List.findIdx?_append, hj]
      dsimp only [Option.or]
      have hjr : j < r.length := getD_some_lt hq
      rw [getD_append_left (by simpa using hjr), getD_set_self hjr,
        castCellInt_getD_of_num hq]

/-- C8 witness: the invariants instantiated on the concrete run
`wrangle_zillow wTab 0 0 = some wzOut`. -/
theorem wrangle_zillow_invariants_witness :
    "unitcnt" ∉ wzOut.cols ∧ "propertylandusetypeid" ∉ wzOut.cols :=
  ⟨(wrangle_zillow_invariants wTab 0 0 wzOut (by decide)).2.1,
   (wrangle_zillow_invariants wTab 0 0 wzOut (by decide)).2.2.1⟩
